import Mathlib

/-
Shallow embedding of videofix (main.go) in Lean 4, together with theorems
checking the natural-language specification against the code.

The Go program builds an ffmpeg argument vector from a list of MKV track
descriptors.  The pure core consists of filterTracks, pruneOK,
langAndDisposition and transcoderCmd; the surrounding I/O (probing tracks
with mkvmerge, running ffmpeg, renaming files) is out of scope.

Note on global state: the Go function langAndDisposition reads the process
global flag *optLang.  transcoderCmd also receives a default-language
PARAMETER optlang, used only in the two prune checks.  In this embedding the
global is passed explicitly as an extra argument (named glang) so that the
dependence on it can be stated and proved.
-/

namespace Videofix

/-- Track metadata decoded from the mkvmerge identify output
(struct trackInfo in main.go); the nested Properties struct is flattened to
its single Language field. -/
structure trackInfo where
  id : Int
  type : String
  codecID : String
  language : String
deriving DecidableEq

/-- Constant eac3Codec from main.go. -/
def eac3Codec : String := "E-AC-3"

/-- Constant aacCodec from main.go. -/
def aacCodec : String := "AAC"

/-- Constant aacBitrate from main.go. -/
def aacBitrate : String := "256k"

/-- Constant mkvAudioType from main.go. -/
def mkvAudioType : String := "audio"

/-- Constant mkvSubType from main.go.  Note the plural: "subtitles". -/
def mkvSubType : String := "subtitles"

/-- filterTracks from main.go: keep the tracks matching every non-blank
criterion, in input order (a blank criterion is ignored). -/
def filterTracks : List trackInfo → String → String → String → List trackInfo
  | [], _, _, _ => []
  | track :: rest, ttype, codec, lang =>
    if ttype ≠ "" ∧ track.type ≠ ttype then filterTracks rest ttype codec lang
    else if codec ≠ "" ∧ track.codecID ≠ codec then filterTracks rest ttype codec lang
    else if lang ≠ "" ∧ track.language ≠ lang then filterTracks rest ttype codec lang
    else track :: filterTracks rest ttype codec lang

/-- pruneOK from main.go: error when keeping only the tracks whose raw
language field equals lang or "und" would eliminate every track of some type
present in the input.  Go picks which offending type to name by iterating a
map in unspecified order; here the first offending type in input order is
named.  The error-versus-nil decision itself does not depend on that order. -/
def pruneOK (tracks : List trackInfo) (lang : String) : Option String :=
  let filteredTracks := tracks.filter (fun t => t.language == lang || t.language == "und")
  match tracks.find? (fun t => ! filteredTracks.any (fun u => u.type == t.type)) with
  | some t => some ("pruning would remove all " ++ t.type ++ " tracks from the output")
  | none => none

/-- langAndDisposition from main.go.  The Go function reads the process
global flag *optLang; that global is the optLang argument here. -/
def langAndDisposition (track : trackInfo) (optLang : String) : String × String :=
  let lang := if track.language ≠ "" then track.language else "und"
  let disposition := if lang = optLang then "default" else "-default"
  (lang, disposition)

/-- The audio loop of transcoderCmd (main.go): tracks is the full list used
for the AAC-equivalence lookup, the explicit list argument is the remaining
iteration suffix, the Nat argument is the audiotrack output-slot counter.
glang is the process global *optLang read through langAndDisposition;
optlang is the parameter of transcoderCmd, used in the prune check. -/
def audioLoop (tracks : List trackInfo) (doPrune : Bool) (optlang glang : String) :
    List trackInfo → Nat → List String
  | [], _ => []
  | track :: rest, n =>
    if track.type ≠ mkvAudioType then audioLoop tracks doPrune optlang glang rest n
    else
      let lang := (langAndDisposition track glang).1
      let disposition := (langAndDisposition track glang).2
      if doPrune ∧ lang ≠ optlang ∧ lang ≠ "und" then
        audioLoop tracks doPrune optlang glang rest n
      else if track.codecID = eac3Codec then
        if lang ≠ "und" ∧ (filterTracks tracks mkvAudioType aacCodec lang).length > 0 then
          audioLoop tracks doPrune optlang glang rest n
        else
          ["-c:a:" ++ toString n, "aac",
           "-b:a:" ++ toString n, aacBitrate,
           "-metadata:s:a:" ++ toString n, "title=AAC Audio (" ++ lang ++ ")",
           "-map", "0:" ++ toString track.id,
           "-disposition:a:" ++ toString n, disposition] ++
          audioLoop tracks doPrune optlang glang rest (n + 1)
      else
        ["-c:a:" ++ toString n, "copy",
         "-map", "0:" ++ toString track.id,
         "-disposition:a:" ++ toString n, disposition] ++
        audioLoop tracks doPrune optlang glang rest (n + 1)

/-- The subtitles loop of transcoderCmd (main.go): the Nat argument is the
subtrack output-slot counter. -/
def subLoop (doPrune : Bool) (optlang glang : String) :
    List trackInfo → Nat → List String
  | [], _ => []
  | track :: rest, n =>
    if track.type ≠ mkvSubType then subLoop doPrune optlang glang rest n
    else
      let lang := (langAndDisposition track glang).1
      let disposition := (langAndDisposition track glang).2
      if doPrune ∧ optlang ≠ lang ∧ lang ≠ "und" then
        subLoop doPrune optlang glang rest n
      else
        ["-map", "0:" ++ toString track.id,
         "-c:s:" ++ toString n, "copy",
         "-disposition:s:" ++ toString n, disposition] ++
        subLoop doPrune optlang glang rest (n + 1)

/-- transcoderCmd from main.go: the full ffmpeg argument vector.  glang is
the process global *optLang (always equal to optlang at the call site in
transcodeEAC3, but a distinct input of the function itself). -/
def transcoderCmd (inputFile outputFile : String) (tracks : List trackInfo)
    (doPrune : Bool) (optlang glang : String) : List String :=
  ["ffmpeg",
   "-loglevel", "error",
   "-stats",
   "-i", inputFile,
   "-c:v", "copy",
   "-map", "0:v",
   "-map_chapters", "0",
   "-map_metadata", "0"] ++
  audioLoop tracks doPrune optlang glang tracks 0 ++
  subLoop doPrune optlang glang tracks 0 ++
  ["-max_interleave_delta", "0",
   "-y",
   "-f", "matroska",
   outputFile]

/-! Specification-side definitions, written from the words of the spec and
compared with the code-side definitions above. -/

/-- Resolved language per the spec: "und" when the raw language field is
empty, the raw language otherwise. -/
def resolveLang (raw : String) : String := if raw ≠ "" then raw else "und"

/-- The fixed preamble of the Command Builder output, per the spec. -/
def preambleArgs (inputFile : String) : List String :=
  ["ffmpeg", "-loglevel", "error", "-stats", "-i", inputFile,
   "-c:v", "copy", "-map", "0:v", "-map_chapters", "0", "-map_metadata", "0"]

/-- The fixed epilogue of the Command Builder output, per the spec. -/
def epilogueArgs (outputFile : String) : List String :=
  ["-max_interleave_delta", "0", "-y", "-f", "matroska", outputFile]

/-- Whether an audio-phase iteration actually emits output for a track:
it must be of audio type, survive the prune check, and, for an E-AC-3 track
with determined language, have no AAC equivalent in the full track list. -/
def audioEmits (tracks : List trackInfo) (doPrune : Bool) (optlang : String)
    (t : trackInfo) : Bool :=
  decide (t.type = mkvAudioType ∧
    ¬(doPrune = true ∧ resolveLang t.language ≠ optlang ∧ resolveLang t.language ≠ "und") ∧
    ¬(t.codecID = eac3Codec ∧ resolveLang t.language ≠ "und" ∧
      (filterTracks tracks mkvAudioType aacCodec (resolveLang t.language)).length > 0))

/-- The arguments an emitted audio track contributes at a given output slot:
a transcode directive for E-AC-3, a copy directive otherwise, then the
source mapping by original identifier and the disposition at that slot. -/
def audioSlotArgs (glang : String) (slot : Nat) (t : trackInfo) : List String :=
  (if t.codecID == eac3Codec then
     ["-c:a:" ++ toString slot, "aac",
      "-b:a:" ++ toString slot, aacBitrate,
      "-metadata:s:a:" ++ toString slot,
      "title=AAC Audio (" ++ resolveLang t.language ++ ")"]
   else ["-c:a:" ++ toString slot, "copy"]) ++
  ["-map", "0:" ++ toString t.id,
   "-disposition:a:" ++ toString slot, (langAndDisposition t glang).2]

/-- Spec-side audio phase: filter the emitting tracks, enumerate them with
contiguous slot numbers starting at 0, and concatenate their arguments. -/
def audioPhaseSpec (tracks : List trackInfo) (doPrune : Bool)
    (optlang glang : String) : List String :=
  (((tracks.filter (audioEmits tracks doPrune optlang)).enum).map
    (fun it => audioSlotArgs glang it.1 it.2)).flatten

/-- Whether the subtitles phase emits output for a track: it must be of
subtitles type and survive the prune check. -/
def subEmits (doPrune : Bool) (optlang : String) (t : trackInfo) : Bool :=
  decide (t.type = mkvSubType ∧
    ¬(doPrune = true ∧ optlang ≠ resolveLang t.language ∧ resolveLang t.language ≠ "und"))

/-- The arguments an emitted subtitles track contributes at a given output
slot: source mapping by original identifier, copy directive and disposition
at that slot. -/
def subSlotArgs (glang : String) (slot : Nat) (t : trackInfo) : List String :=
  ["-map", "0:" ++ toString t.id,
   "-c:s:" ++ toString slot, "copy",
   "-disposition:s:" ++ toString slot, (langAndDisposition t glang).2]

/-- Spec-side subtitles phase: filter the emitting tracks, enumerate them
with contiguous slot numbers starting at 0, and concatenate their
arguments. -/
def subPhaseSpec (tracks : List trackInfo) (doPrune : Bool)
    (optlang glang : String) : List String :=
  (((tracks.filter (subEmits doPrune optlang)).enum).map
    (fun it => subSlotArgs glang it.1 it.2)).flatten

/-! Helper lemmas shared by the claim theorems below. -/

/-- The first component of langAndDisposition is the resolved language. -/
theorem langAndDisposition_fst (t : trackInfo) (g : String) :
    (langAndDisposition t g).1 = resolveLang t.language := rfl

/-- The second component of langAndDisposition compares the resolved
language with the global default language. -/
theorem langAndDisposition_snd (t : trackInfo) (g : String) :
    (langAndDisposition t g).2 =
      if resolveLang t.language = g then "default" else "-default" := rfl

/-- A resolved language is never the empty string. -/
theorem resolveLang_ne_empty (raw : String) : resolveLang raw ≠ "" := by
  unfold resolveLang
  by_cases h : raw = "" <;> simp [h]

/-- For a criterion that is neither blank nor the sentinel, matching on the
raw language and matching on the resolved language coincide. -/
theorem resolveLang_eq_iff (raw lang : String) (h1 : lang ≠ "") (h2 : lang ≠ "und") :
    resolveLang raw = lang ↔ raw = lang := by
  unfold resolveLang
  by_cases h : raw = ""
  · simp [h, Ne.symm h1, Ne.symm h2]
  · simp [h]

/-- filterTracks is List.filter with the conjunction of the three optional
criteria. -/
theorem filterTracks_eq_filter (ttype codec lang : String) :
    ∀ ts : List trackInfo,
      filterTracks ts ttype codec lang =
        ts.filter (fun t => decide ((ttype = "" ∨ t.type = ttype) ∧
          (codec = "" ∨ t.codecID = codec) ∧ (lang = "" ∨ t.language = lang)))
  | [] => rfl
  | t :: rest => by
    rw [List.filter_cons]
    by_cases h1 : ttype ≠ "" ∧ t.type ≠ ttype
    · rw [filterTracks, if_pos h1, filterTracks_eq_filter ttype codec lang rest]
      have : ¬ ((ttype = "" ∨ t.type = ttype) ∧ (codec = "" ∨ t.codecID = codec) ∧
          (lang = "" ∨ t.language = lang)) := by
        tauto
      simp [this]
    · by_cases h2 : codec ≠ "" ∧ t.codecID ≠ codec
      · rw [filterTracks, if_neg h1, if_pos h2, filterTracks_eq_filter ttype codec lang rest]
        have : ¬ ((ttype = "" ∨ t.type = ttype) ∧ (codec = "" ∨ t.codecID = codec) ∧
            (lang = "" ∨ t.language = lang)) := by
          tauto
        simp [this]
      · by_cases h3 : lang ≠ "" ∧ t.language ≠ lang
        · rw [filterTracks, if_neg h1, if_neg h2, if_pos h3,
            filterTracks_eq_filter ttype codec lang rest]
          have : ¬ ((ttype = "" ∨ t.type = ttype) ∧ (codec = "" ∨ t.codecID = codec) ∧
              (lang = "" ∨ t.language = lang)) := by
            tauto
          simp [this]
        · rw [filterTracks, if_neg h1, if_neg h2, if_neg h3,
            filterTracks_eq_filter ttype codec lang rest]
          have : (ttype = "" ∨ t.type = ttype) ∧ (codec = "" ∨ t.codecID = codec) ∧
              (lang = "" ∨ t.language = lang) := by
            tauto
          simp [this]

/-- Membership in a filterTracks result. -/
theorem mem_filterTracks {u : trackInfo} {ts : List trackInfo} {ttype codec lang : String} :
    u ∈ filterTracks ts ttype codec lang ↔
      u ∈ ts ∧ (ttype = "" ∨ u.type = ttype) ∧ (codec = "" ∨ u.codecID = codec) ∧
        (lang = "" ∨ u.language = lang) := by
  rw [filterTracks_eq_filter]
  simp [List.mem_filter]

/-- A track in the middle of the list that fails the criteria can be removed
without changing the filterTracks result. -/
theorem filterTracks_middle_skip (l1 l2 : List trackInfo) (t : trackInfo)
    (ttype codec lang : String)
    (h : ¬ ((ttype = "" ∨ t.type = ttype) ∧ (codec = "" ∨ t.codecID = codec) ∧
      (lang = "" ∨ t.language = lang))) :
    filterTracks (l1 ++ t :: l2) ttype codec lang = filterTracks (l1 ++ l2) ttype codec lang := by
  rw [filterTracks_eq_filter, filterTracks_eq_filter]
  simp only [List.filter_append, List.filter_cons]
  simp [h]

/-- The audio loop equals the spec-side formulation: filter the emitting
tracks, enumerate them with contiguous slot numbers from the current
counter, and concatenate the per-slot arguments. -/
theorem audioLoop_eq (tracks : List trackInfo) (doPrune : Bool) (optlang glang : String) :
    ∀ (ts : List trackInfo) (n : Nat),
      audioLoop tracks doPrune optlang glang ts n =
        ((List.enumFrom n (ts.filter (audioEmits tracks doPrune optlang))).map
          (fun it => audioSlotArgs glang it.1 it.2)).flatten
  | [], n => by simp [audioLoop]
  | t :: rest, n => by
    by_cases h1 : t.type = mkvAudioType
    · by_cases h2 : doPrune = true ∧ resolveLang t.language ≠ optlang ∧
          resolveLang t.language ≠ "und"
      · have he : audioEmits tracks doPrune optlang t = false := by
          rw [audioEmits, decide_eq_false_iff_not]
          tauto
        rw [audioLoop]
        rw [if_neg (by simp [h1]), if_pos (by simpa [langAndDisposition_fst] using h2)]
        rw [List.filter_cons_of_neg (by simp [he]),
          audioLoop_eq tracks doPrune optlang glang rest n]
      · by_cases h3 : t.codecID = eac3Codec
        · by_cases h4 : resolveLang t.language ≠ "und" ∧
              (filterTracks tracks mkvAudioType aacCodec (resolveLang t.language)).length > 0
          · have he : audioEmits tracks doPrune optlang t = false := by
              rw [audioEmits, decide_eq_false_iff_not]
              tauto
            rw [audioLoop]
            rw [if_neg (by simp [h1]), if_neg (by simpa [langAndDisposition_fst] using h2),
              if_pos h3, if_pos (by simpa [langAndDisposition_fst] using h4)]
            rw [List.filter_cons_of_neg (by simp [he]),
              audioLoop_eq tracks doPrune optlang glang rest n]
          · have he : audioEmits tracks doPrune optlang t = true := by
              rw [audioEmits, decide_eq_true_eq]
              tauto
            rw [audioLoop]
            rw [if_neg (by simp [h1]), if_neg (by simpa [langAndDisposition_fst] using h2),
              if_pos h3, if_neg (by simpa [langAndDisposition_fst] using h4)]
            rw [List.filter_cons_of_pos (by simp [he])]
            rw [audioLoop_eq tracks doPrune optlang glang rest (n + 1)]
            simp [audioSlotArgs, h3, langAndDisposition_fst, List.enumFrom]
        · have he : audioEmits tracks doPrune optlang t = true := by
            rw [audioEmits, decide_eq_true_eq]
            tauto
          rw [audioLoop]
          rw [if_neg (by simp [h1]), if_neg (by simpa [langAndDisposition_fst] using h2),
            if_neg h3]
          rw [List.filter_cons_of_pos (by simp [he])]
          rw [audioLoop_eq tracks doPrune optlang glang rest (n + 1)]
          simp [audioSlotArgs, h3, langAndDisposition_fst, List.enumFrom]
    · have he : audioEmits tracks doPrune optlang t = false := by
        rw [audioEmits, decide_eq_false_iff_not]
        tauto
      rw [audioLoop]
      rw [if_pos (by simp [h1])]
      rw [List.filter_cons_of_neg (by simp [he]),
        audioLoop_eq tracks doPrune optlang glang rest n]

/-- The subtitles loop equals the spec-side formulation: filter the emitting
tracks, enumerate them with contiguous slot numbers from the current
counter, and concatenate the per-slot arguments. -/
theorem subLoop_eq (doPrune : Bool) (optlang glang : String) :
    ∀ (ts : List trackInfo) (n : Nat),
      subLoop doPrune optlang glang ts n =
        ((List.enumFrom n (ts.filter (subEmits doPrune optlang))).map
          (fun it => subSlotArgs glang it.1 it.2)).flatten
  | [], n => by simp [subLoop]
  | t :: rest, n => by
    by_cases h1 : t.type = mkvSubType
    · by_cases h2 : doPrune = true ∧ optlang ≠ resolveLang t.language ∧
          resolveLang t.language ≠ "und"
      · have he : subEmits doPrune optlang t = false := by
          rw [subEmits, decide_eq_false_iff_not]
          tauto
        rw [subLoop]
        rw [if_neg (by simp [h1]), if_pos (by simpa [langAndDisposition_fst] using h2)]
        rw [List.filter_cons_of_neg (by simp [he]),
          subLoop_eq doPrune optlang glang rest n]
      · have he : subEmits doPrune optlang t = true := by
          rw [subEmits, decide_eq_true_eq]
          tauto
        rw [subLoop]
        rw [if_neg (by simp [h1]), if_neg (by simpa [langAndDisposition_fst] using h2)]
        rw [List.filter_cons_of_pos (by simp [he])]
        rw [subLoop_eq doPrune optlang glang rest (n + 1)]
        simp [subSlotArgs, langAndDisposition_fst, List.enumFrom]
    · have he : subEmits doPrune optlang t = false := by
        rw [subEmits, decide_eq_false_iff_not]
        tauto
      rw [subLoop]
      rw [if_pos (by simp [h1])]
      rw [List.filter_cons_of_neg (by simp [he]),
        subLoop_eq doPrune optlang glang rest n]

/-- The audio loop over the full track list with counter 0 is the spec-side
audio phase. -/
theorem audioLoop_eq_phaseSpec (tracks : List trackInfo) (doPrune : Bool)
    (optlang glang : String) :
    audioLoop tracks doPrune optlang glang tracks 0 =
      audioPhaseSpec tracks doPrune optlang glang := by
  rw [audioLoop_eq, audioPhaseSpec, List.enum]

/-- The subtitles loop over the full track list with counter 0 is the
spec-side subtitles phase. -/
theorem subLoop_eq_phaseSpec (tracks : List trackInfo) (doPrune : Bool)
    (optlang glang : String) :
    subLoop doPrune optlang glang tracks 0 =
      subPhaseSpec tracks doPrune optlang glang := by
  rw [subLoop_eq, subPhaseSpec, List.enum]

/-- A track whose resolved language is neither the default nor "und" never
emits in the audio phase when pruning is enabled. -/
theorem audioEmits_false_of_pruned (tracks : List trackInfo) (optlang : String)
    (t : trackInfo) (hl : resolveLang t.language ≠ optlang)
    (hu : resolveLang t.language ≠ "und") :
    audioEmits tracks true optlang t = false := by
  rw [audioEmits, decide_eq_false_iff_not]
  intro h
  exact h.2.1 ⟨rfl, hl, hu⟩

/-- A track whose resolved language is neither the default nor "und" never
emits in the subtitles phase when pruning is enabled. -/
theorem subEmits_false_of_pruned (optlang : String) (t : trackInfo)
    (hl : resolveLang t.language ≠ optlang) (hu : resolveLang t.language ≠ "und") :
    subEmits true optlang t = false := by
  rw [subEmits, decide_eq_false_iff_not]
  intro h
  exact h.2 ⟨rfl, Ne.symm hl, hu⟩

/-- A track that is not of audio type never emits in the audio phase. -/
theorem audioEmits_false_of_type (tracks : List trackInfo) (doPrune : Bool)
    (optlang : String) (t : trackInfo) (h : t.type ≠ mkvAudioType) :
    audioEmits tracks doPrune optlang t = false := by
  rw [audioEmits, decide_eq_false_iff_not]
  intro hc
  exact h hc.1

/-- A track that is not of subtitles type never emits in the subtitles
phase. -/
theorem subEmits_false_of_type (doPrune : Bool) (optlang : String) (t : trackInfo)
    (h : t.type ≠ mkvSubType) :
    subEmits doPrune optlang t = false := by
  rw [subEmits, decide_eq_false_iff_not]
  intro hc
  exact h hc.1

/-- Removing a middle track whose resolved language differs from the
(non-blank) lookup language does not change an AAC-equivalence lookup. -/
theorem filterTracks_aac_middle (l1 l2 : List trackInfo) (t : trackInfo) (lang : String)
    (hne : resolveLang t.language ≠ lang) (hlang : lang ≠ "") :
    filterTracks (l1 ++ t :: l2) mkvAudioType aacCodec lang =
      filterTracks (l1 ++ l2) mkvAudioType aacCodec lang := by
  apply filterTracks_middle_skip
  rintro ⟨-, -, h3 | h3⟩
  · exact hlang h3
  · apply hne
    rw [resolveLang, if_pos (h3 ▸ hlang), h3]

/-- Removing a middle track that is not of audio type does not change an
AAC-equivalence lookup. -/
theorem filterTracks_aac_middle_type (l1 l2 : List trackInfo) (t : trackInfo)
    (lang : String) (h : t.type ≠ mkvAudioType) :
    filterTracks (l1 ++ t :: l2) mkvAudioType aacCodec lang =
      filterTracks (l1 ++ l2) mkvAudioType aacCodec lang := by
  apply filterTracks_middle_skip
  rintro ⟨h1 | h1, -, -⟩
  · exact absurd h1 (by simp [mkvAudioType])
  · exact h h1

/-- Removing a middle track pruned for its language does not change whether
any other track emits in the audio phase. -/
theorem audioEmits_middle_pruned (l1 l2 : List trackInfo) (optlang : String)
    (t : trackInfo) (hl : resolveLang t.language ≠ optlang)
    (hu : resolveLang t.language ≠ "und") (u : trackInfo) :
    audioEmits (l1 ++ t :: l2) true optlang u = audioEmits (l1 ++ l2) true optlang u := by
  rw [audioEmits, audioEmits, decide_eq_decide]
  by_cases hp : resolveLang u.language ≠ optlang ∧ resolveLang u.language ≠ "und"
  · constructor <;> (intro h; exact absurd ⟨rfl, hp.1, hp.2⟩ h.2.1)
  · by_cases hu2 : resolveLang u.language = "und"
    · simp [hu2]
    · have hoe : resolveLang u.language = optlang := by tauto
      rw [filterTracks_aac_middle l1 l2 t (resolveLang u.language)
        (by rw [hoe]; exact hl) (resolveLang_ne_empty u.language)]

/-- Removing a middle track that is not of audio type does not change
whether any other track emits in the audio phase. -/
theorem audioEmits_middle_type (l1 l2 : List trackInfo) (doPrune : Bool)
    (optlang : String) (t : trackInfo) (h : t.type ≠ mkvAudioType) (u : trackInfo) :
    audioEmits (l1 ++ t :: l2) doPrune optlang u = audioEmits (l1 ++ l2) doPrune optlang u := by
  rw [audioEmits, audioEmits, decide_eq_decide]
  rw [filterTracks_aac_middle_type l1 l2 t _ h]

/-- Removing a middle non-emitting track from the iteration list leaves the
subtitles loop output unchanged. -/
theorem subLoop_remove (doPrune : Bool) (optlang glang : String)
    (l1 l2 : List trackInfo) (t : trackInfo) (n : Nat)
    (he : subEmits doPrune optlang t = false) :
    subLoop doPrune optlang glang (l1 ++ t :: l2) n =
      subLoop doPrune optlang glang (l1 ++ l2) n := by
  rw [subLoop_eq, subLoop_eq]
  simp only [List.filter_append]
  rw [List.filter_cons_of_neg (by simp [he])]

/-- Removing a middle language-pruned track leaves the audio phase output
unchanged, both as iterated track and as candidate AAC equivalent. -/
theorem audioPhase_remove_pruned (l1 l2 : List trackInfo) (optlang glang : String)
    (t : trackInfo) (hl : resolveLang t.language ≠ optlang)
    (hu : resolveLang t.language ≠ "und") (n : Nat) :
    audioLoop (l1 ++ t :: l2) true optlang glang (l1 ++ t :: l2) n =
      audioLoop (l1 ++ l2) true optlang glang (l1 ++ l2) n := by
  rw [audioLoop_eq, audioLoop_eq]
  have h1 : (l1 ++ t :: l2).filter (audioEmits (l1 ++ t :: l2) true optlang) =
      (l1 ++ t :: l2).filter (audioEmits (l1 ++ l2) true optlang) :=
    List.filter_congr (fun u _ => audioEmits_middle_pruned l1 l2 optlang t hl hu u)
  have h2 : (l1 ++ t :: l2).filter (audioEmits (l1 ++ l2) true optlang) =
      (l1 ++ l2).filter (audioEmits (l1 ++ l2) true optlang) := by
    simp only [List.filter_append]
    rw [List.filter_cons_of_neg
      (by simp [audioEmits_false_of_pruned (l1 ++ l2) optlang t hl hu])]
  rw [h1, h2]

/-- Removing a middle track that is not of audio type leaves the audio phase
output unchanged. -/
theorem audioPhase_remove_type (l1 l2 : List trackInfo) (doPrune : Bool)
    (optlang glang : String) (t : trackInfo) (h : t.type ≠ mkvAudioType) (n : Nat) :
    audioLoop (l1 ++ t :: l2) doPrune optlang glang (l1 ++ t :: l2) n =
      audioLoop (l1 ++ l2) doPrune optlang glang (l1 ++ l2) n := by
  rw [audioLoop_eq, audioLoop_eq]
  have h1 : (l1 ++ t :: l2).filter (audioEmits (l1 ++ t :: l2) doPrune optlang) =
      (l1 ++ t :: l2).filter (audioEmits (l1 ++ l2) doPrune optlang) :=
    List.filter_congr (fun u _ => audioEmits_middle_type l1 l2 doPrune optlang t h u)
  have h2 : (l1 ++ t :: l2).filter (audioEmits (l1 ++ l2) doPrune optlang) =
      (l1 ++ l2).filter (audioEmits (l1 ++ l2) doPrune optlang) := by
    simp only [List.filter_append]
    rw [List.filter_cons_of_neg
      (by simp [audioEmits_false_of_type (l1 ++ l2) doPrune optlang t h])]
  rw [h1, h2]

/-- An AAC-equivalence lookup succeeds exactly when some audio AAC track in
the list has the given resolved language, provided the language is neither
blank nor "und" (raw and resolved matching then coincide). -/
theorem aac_equivalent_iff (tracks : List trackInfo) (lang : String)
    (h1 : lang ≠ "") (h2 : lang ≠ "und") :
    (filterTracks tracks mkvAudioType aacCodec lang).length > 0 ↔
      ∃ u ∈ tracks, u.type = mkvAudioType ∧ u.codecID = aacCodec ∧
        resolveLang u.language = lang := by
  rw [gt_iff_lt, List.length_pos_iff_exists_mem]
  constructor
  · rintro ⟨u, hu⟩
    rw [mem_filterTracks] at hu
    obtain ⟨hmem, ht, hc, hlg⟩ := hu
    refine ⟨u, hmem, ?_, ?_, ?_⟩
    · rcases ht with h | h
      · exact absurd h (by simp [mkvAudioType])
      · exact h
    · rcases hc with h | h
      · exact absurd h (by simp [aacCodec])
      · exact h
    · rcases hlg with h | h
      · exact absurd h h1
      · exact (resolveLang_eq_iff u.language lang h1 h2).mpr h
  · rintro ⟨u, hmem, ht, hc, hlg⟩
    refine ⟨u, ?_⟩
    rw [mem_filterTracks]
    exact ⟨hmem, Or.inr ht, Or.inr hc,
      Or.inr ((resolveLang_eq_iff u.language lang h1 h2).mp hlg)⟩

/-! Claim theorems. -/

/-- C2 (amended): pruneOK succeeds exactly when every track type present in
the input retains at least one track whose RAW language field equals the
default language or equals "und"; in particular it succeeds on an empty
input.  (The raw language is compared: a track whose raw language is the
empty string does NOT survive unless the default language is itself the
empty string.) -/
theorem pruneOK_raw_language_iff (tracks : List trackInfo) (lang : String) :
    pruneOK tracks lang = none ↔
      ∀ t ∈ tracks, ∃ u ∈ tracks,
        (u.language = lang ∨ u.language = "und") ∧ u.type = t.type := by
  unfold pruneOK
  simp only []
  split
  · rename_i t heq
    refine iff_of_false (by simp) ?_
    intro hall
    have hpred := List.find?_some heq
    have hmem := List.mem_of_find?_eq_some heq
    obtain ⟨u, humem, hcond, htype⟩ := hall t hmem
    have : (tracks.filter (fun t2 => t2.language == lang || t2.language == "und")).any
        (fun v => v.type == t.type) = true := by
      rw [List.any_eq_true]
      refine ⟨u, ?_, ?_⟩
      · rw [List.mem_filter]
        refine ⟨humem, ?_⟩
        simp only [Bool.or_eq_true, beq_iff_eq]
        exact hcond
      · simp only [beq_iff_eq]
        exact htype
    rw [this] at hpred
    simp at hpred
  · rename_i heq
    refine iff_of_true rfl ?_
    intro t hmem
    have := List.find?_eq_none.mp heq t hmem
    simp only [Bool.not_eq_true', Bool.not_eq_false] at this
    rw [List.any_eq_true] at this
    obtain ⟨u, humem, htype⟩ := this
    rw [List.mem_filter] at humem
    refine ⟨u, humem.1, ?_, ?_⟩
    · have := humem.2
      simp only [Bool.or_eq_true, beq_iff_eq] at this
      exact this
    · simpa using htype

/-- C2 counterexample: on a single audio track whose raw language field is
empty, the claim predicts success (the resolved language is "und", so the
audio type survives), but pruneOK compares the raw language and errors. -/
theorem pruneOK_resolved_refuted :
    pruneOK [{ id := 1, type := "audio", codecID := "AAC", language := "" }] "eng" ≠ none ∧
    resolveLang "" = "und" := by
  constructor
  · decide
  · rfl

/-- Witness for C2 on the empty input: pruneOK succeeds. -/
theorem pruneOK_raw_language_iff_witness : pruneOK [] "eng" = none :=
  (pruneOK_raw_language_iff [] "eng").mpr (by simp)

/-- C3 (amended): the subtitles phase of build processes exactly the tracks
whose type field equals "subtitles": such a track surviving the prune rule
emits the source mapping, a copy codec directive and the disposition flag at
the current subtitles output slot, advancing the counter, and a track of any
other type contributes nothing to the phase. -/
theorem subtitles_phase_step (doPrune : Bool) (optlang glang : String) (n : Nat)
    (t : trackInfo) (rest : List trackInfo) :
    (t.type = mkvSubType →
      ¬(doPrune = true ∧ optlang ≠ resolveLang t.language ∧
        resolveLang t.language ≠ "und") →
      subLoop doPrune optlang glang (t :: rest) n =
        ["-map", "0:" ++ toString t.id,
         "-c:s:" ++ toString n, "copy",
         "-disposition:s:" ++ toString n, (langAndDisposition t glang).2] ++
        subLoop doPrune optlang glang rest (n + 1)) ∧
    (t.type ≠ mkvSubType →
      subLoop doPrune optlang glang (t :: rest) n =
        subLoop doPrune optlang glang rest n) := by
  constructor
  · intro h1 h2
    rw [subLoop]
    rw [if_neg (by simp [h1]), if_neg (by simpa [langAndDisposition_fst] using h2)]
  · intro h1
    rw [subLoop]
    rw [if_pos h1]

/-- Witness for the amended C3 at a concrete surviving subtitles track. -/
theorem subtitles_phase_step_witness :
    subLoop false "eng" "eng"
        ({ id := 3, type := "subtitles", codecID := "S_TEXT/UTF8", language := "eng" } :: []) 0 =
      ["-map", "0:" ++ toString (3 : Int),
       "-c:s:" ++ toString (0 : Nat), "copy",
       "-disposition:s:" ++ toString (0 : Nat),
       (langAndDisposition
         { id := 3, type := "subtitles", codecID := "S_TEXT/UTF8", language := "eng" } "eng").2] ++
      subLoop false "eng" "eng" [] (0 + 1) :=
  (subtitles_phase_step false "eng" "eng" 0
    { id := 3, type := "subtitles", codecID := "S_TEXT/UTF8", language := "eng" } []).1
    rfl (by decide)

/-- C3 counterexample: a track whose type is the singular string "subtitle"
is not processed by the subtitles phase (the code matches the plural
"subtitles"), while an otherwise identical track of type "subtitles" is. -/
theorem subtitle_type_string_refuted :
    subLoop false "eng" "eng"
        [{ id := 3, type := "subtitle", codecID := "S_TEXT/UTF8", language := "eng" }] 0 = [] ∧
    subLoop false "eng" "eng"
        [{ id := 3, type := "subtitles", codecID := "S_TEXT/UTF8", language := "eng" }] 0 =
      ["-map", "0:3", "-c:s:0", "copy", "-disposition:s:0", "default"] := by
  constructor
  · decide
  · decide

/-- C4: the resolved language is "und" when the raw language field is empty
and the raw language otherwise (so it is "und" exactly for raw languages ""
and "und"); the disposition is "default" exactly when the resolved language
equals the configured default language; in particular an empty raw language
under an empty default gives "-default" but under default "und" gives
"default". -/
theorem langAndDisposition_spec (t : trackInfo) (dl : String) :
    ((langAndDisposition t dl).1 = if t.language = "" then "und" else t.language) ∧
    ((langAndDisposition t dl).1 = "und" ↔ (t.language = "" ∨ t.language = "und")) ∧
    ((langAndDisposition t dl).2 = "default" ↔ (langAndDisposition t dl).1 = dl) ∧
    (t.language = "" → (langAndDisposition t "").2 = "-default" ∧
      (langAndDisposition t "und").2 = "default") := by
  refine ⟨?_, ?_, ?_, ?_⟩
  · rw [langAndDisposition_fst, resolveLang]
    by_cases h : t.language = "" <;> simp [h]
  · rw [langAndDisposition_fst, resolveLang]
    by_cases h : t.language = "" <;> simp [h]
  · rw [langAndDisposition_snd, langAndDisposition_fst]
    by_cases h : resolveLang t.language = dl <;> simp [h]
  · intro h
    constructor
    · rw [langAndDisposition_snd, h]
      decide
    · rw [langAndDisposition_snd, h]
      decide

/-- Witness for C4 at a concrete track with empty raw language. -/
theorem langAndDisposition_spec_witness :
    (langAndDisposition
        { id := 7, type := "audio", codecID := "AAC", language := "" } "").2 = "-default" ∧
    (langAndDisposition
        { id := 7, type := "audio", codecID := "AAC", language := "" } "und").2 = "default" :=
  (langAndDisposition_spec
    { id := 7, type := "audio", codecID := "AAC", language := "" } "").2.2.2 rfl

/-- C8: filterTracks is List.filter with the conjunction of the three
optional criteria; it is an order-preserving subsequence of its input, the
all-blank call is the identity, every member of a three-criterion result is
in each single-criterion result, and a call matching nothing returns the
empty list. -/
theorem filterTracks_conjunction (tracks : List trackInfo) (tt cc ll : String) :
    filterTracks tracks tt cc ll =
      tracks.filter (fun u => decide ((tt = "" ∨ u.type = tt) ∧
        (cc = "" ∨ u.codecID = cc) ∧ (ll = "" ∨ u.language = ll))) ∧
    List.Sublist (filterTracks tracks tt cc ll) tracks ∧
    filterTracks tracks "" "" "" = tracks ∧
    (∀ u ∈ filterTracks tracks tt cc ll,
      u ∈ filterTracks tracks tt "" "" ∧ u ∈ filterTracks tracks "" cc "" ∧
        u ∈ filterTracks tracks "" "" ll) ∧
    ((∀ u ∈ tracks, ¬((tt = "" ∨ u.type = tt) ∧ (cc = "" ∨ u.codecID = cc) ∧
        (ll = "" ∨ u.language = ll))) → filterTracks tracks tt cc ll = []) := by
  refine ⟨filterTracks_eq_filter tt cc ll tracks, ?_, ?_, ?_, ?_⟩
  · rw [filterTracks_eq_filter]
    exact List.filter_sublist tracks
  · rw [filterTracks_eq_filter]
    simp
  · intro u hu
    rw [mem_filterTracks] at hu
    refine ⟨?_, ?_, ?_⟩ <;> rw [mem_filterTracks] <;> tauto
  · intro hnone
    rw [filterTracks_eq_filter]
    rw [List.filter_eq_nil_iff]
    intro u hu
    simpa using hnone u hu

/-- Witness for C8: a call matching nothing returns the empty list. -/
theorem filterTracks_conjunction_witness :
    filterTracks [{ id := 1, type := "audio", codecID := "AAC", language := "eng" }]
      "video" "" "" = [] :=
  (filterTracks_conjunction
    [{ id := 1, type := "audio", codecID := "AAC", language := "eng" }]
    "video" "" "").2.2.2.2 (by decide)

/-- C1: an E-AC-3 audio track that survives pruning is skipped entirely when
its resolved language is determined (not "und") and the full, unfiltered
track list contains an audio AAC track of the same resolved language;
otherwise the audio phase emits the transcode directive (codec "aac" at the
current audio slot, bitrate "256k", and the title tag embedding the resolved
language) followed by the source mapping and disposition. -/
theorem eac3_equivalence_rule (tracks rest : List trackInfo) (doPrune : Bool)
    (optlang glang : String) (n : Nat) (t : trackInfo)
    (htype : t.type = mkvAudioType) (hcodec : t.codecID = eac3Codec)
    (hprune : ¬(doPrune = true ∧ resolveLang t.language ≠ optlang ∧
      resolveLang t.language ≠ "und")) :
    ((resolveLang t.language ≠ "und" ∧ ∃ u ∈ tracks, u.type = mkvAudioType ∧
        u.codecID = aacCodec ∧ resolveLang u.language = resolveLang t.language) →
      audioLoop tracks doPrune optlang glang (t :: rest) n =
        audioLoop tracks doPrune optlang glang rest n) ∧
    (¬(resolveLang t.language ≠ "und" ∧ ∃ u ∈ tracks, u.type = mkvAudioType ∧
        u.codecID = aacCodec ∧ resolveLang u.language = resolveLang t.language) →
      audioLoop tracks doPrune optlang glang (t :: rest) n =
        ["-c:a:" ++ toString n, "aac",
         "-b:a:" ++ toString n, aacBitrate,
         "-metadata:s:a:" ++ toString n,
         "title=AAC Audio (" ++ resolveLang t.language ++ ")",
         "-map", "0:" ++ toString t.id,
         "-disposition:a:" ++ toString n, (langAndDisposition t glang).2] ++
        audioLoop tracks doPrune optlang glang rest (n + 1)) := by
  constructor
  · rintro ⟨hund, hex⟩
    have hlen : (filterTracks tracks mkvAudioType aacCodec
        (resolveLang t.language)).length > 0 :=
      (aac_equivalent_iff tracks (resolveLang t.language)
        (resolveLang_ne_empty t.language) hund).mpr hex
    rw [audioLoop]
    rw [if_neg (by simp [htype]), if_neg (by simpa [langAndDisposition_fst] using hprune),
      if_pos hcodec,
      if_pos (by simpa [langAndDisposition_fst] using And.intro hund hlen)]
  · intro hno
    have hlen : ¬(resolveLang t.language ≠ "und" ∧ (filterTracks tracks mkvAudioType
        aacCodec (resolveLang t.language)).length > 0) := by
      intro hc
      exact hno ⟨hc.1, (aac_equivalent_iff tracks (resolveLang t.language)
        (resolveLang_ne_empty t.language) hc.1).mp hc.2⟩
    rw [audioLoop]
    rw [if_neg (by simp [htype]), if_neg (by simpa [langAndDisposition_fst] using hprune),
      if_pos hcodec,
      if_neg (by simpa [langAndDisposition_fst] using hlen)]
    rw [langAndDisposition_fst]

/-- Witness for C1: with an AAC/eng equivalent present in the full list,
the E-AC-3/eng track contributes no arguments. -/
theorem eac3_equivalence_rule_witness :
    audioLoop
        [{ id := 1, type := "audio", codecID := "E-AC-3", language := "eng" },
         { id := 2, type := "audio", codecID := "AAC", language := "eng" }]
        false "eng" "eng"
        ({ id := 1, type := "audio", codecID := "E-AC-3", language := "eng" } :: []) 0 =
      audioLoop
        [{ id := 1, type := "audio", codecID := "E-AC-3", language := "eng" },
         { id := 2, type := "audio", codecID := "AAC", language := "eng" }]
        false "eng" "eng" [] 0 :=
  (eac3_equivalence_rule
    [{ id := 1, type := "audio", codecID := "E-AC-3", language := "eng" },
     { id := 2, type := "audio", codecID := "AAC", language := "eng" }]
    [] false "eng" "eng" 0
    { id := 1, type := "audio", codecID := "E-AC-3", language := "eng" }
    rfl rfl (by decide)).1 (by decide)

/-- C5: with pruning enabled, an audio or subtitles track whose resolved
language is neither the default nor "und" is skipped before any argument is
emitted and before the E-AC-3 equivalence check (the step equations hold for
an arbitrary equivalence-lookup list), and it contributes nothing at all to
the build output. -/
theorem prune_skips_entirely (tracks rest l1 l2 : List trackInfo)
    (i o optlang glang : String) (n : Nat) (t : trackInfo)
    (htype : t.type = mkvAudioType ∨ t.type = mkvSubType)
    (hl : resolveLang t.language ≠ optlang) (hu : resolveLang t.language ≠ "und") :
    audioLoop tracks true optlang glang (t :: rest) n =
      audioLoop tracks true optlang glang rest n ∧
    subLoop true optlang glang (t :: rest) n = subLoop true optlang glang rest n ∧
    transcoderCmd i o (l1 ++ t :: l2) true optlang glang =
      transcoderCmd i o (l1 ++ l2) true optlang glang := by
  have hea : audioEmits tracks true optlang t = false := by
    rcases htype with h | h
    · exact audioEmits_false_of_pruned tracks optlang t hl hu
    · exact audioEmits_false_of_type tracks true optlang t (by rw [h]; decide)
  have hes : subEmits true optlang t = false := by
    rcases htype with h | h
    · exact subEmits_false_of_type true optlang t (by rw [h]; decide)
    · exact subEmits_false_of_pruned optlang t hl hu
  refine ⟨?_, ?_, ?_⟩
  · rw [audioLoop_eq, audioLoop_eq, List.filter_cons_of_neg (by simp [hea])]
  · rw [subLoop_eq, subLoop_eq, List.filter_cons_of_neg (by simp [hes])]
  · rw [transcoderCmd, transcoderCmd]
    rw [audioPhase_remove_pruned l1 l2 optlang glang t hl hu 0]
    rw [subLoop_remove true optlang glang l1 l2 t 0 hes]

/-- Witness for C5 at a concrete Spanish audio track under default "eng". -/
theorem prune_skips_entirely_witness :
    audioLoop [] true "eng" "eng"
        ({ id := 5, type := "audio", codecID := "AAC", language := "spa" } :: []) 0 =
      audioLoop [] true "eng" "eng" [] 0 ∧
    subLoop true "eng" "eng"
        ({ id := 5, type := "audio", codecID := "AAC", language := "spa" } :: []) 0 =
      subLoop true "eng" "eng" [] 0 ∧
    transcoderCmd "in.mkv" "out.mkv"
        ([] ++ { id := 5, type := "audio", codecID := "AAC", language := "spa" } :: [])
        true "eng" "eng" =
      transcoderCmd "in.mkv" "out.mkv" ([] ++ []) true "eng" "eng" :=
  prune_skips_entirely [] [] [] [] "in.mkv" "out.mkv" "eng" "eng" 0
    { id := 5, type := "audio", codecID := "AAC", language := "spa" }
    (Or.inl rfl) (by decide) (by decide)

/-- C6: the build output is the fixed preamble, then the audio phase, then
the subtitles phase, then the fixed epilogue; hence the preamble tokens come
first in their stated order (the all-video mapping among them), every
audio-phase token precedes every subtitles-phase token, and the epilogue
tokens come last in their stated order. -/
theorem cmd_fixed_structure (i o : String) (tracks : List trackInfo) (p : Bool)
    (l g : String) :
    transcoderCmd i o tracks p l g =
      preambleArgs i ++
      (audioLoop tracks p l g tracks 0 ++ subLoop p l g tracks 0) ++
      epilogueArgs o ∧
    (∃ rest, transcoderCmd i o tracks p l g = preambleArgs i ++ rest) ∧
    (∃ front, transcoderCmd i o tracks p l g = front ++ epilogueArgs o) := by
  refine ⟨?_,
    ⟨audioLoop tracks p l g tracks 0 ++ subLoop p l g tracks 0 ++ epilogueArgs o, ?_⟩,
    ⟨preambleArgs i ++ (audioLoop tracks p l g tracks 0 ++ subLoop p l g tracks 0), ?_⟩⟩ <;>
  simp [transcoderCmd, preambleArgs, epilogueArgs]

/-- Witness for C6 on a concrete input. -/
theorem cmd_fixed_structure_witness :
    transcoderCmd "in.mkv" "out.mkv"
        [{ id := 1, type := "audio", codecID := "AAC", language := "eng" }]
        false "eng" "eng" =
      preambleArgs "in.mkv" ++
      (audioLoop [{ id := 1, type := "audio", codecID := "AAC", language := "eng" }]
         false "eng" "eng"
         [{ id := 1, type := "audio", codecID := "AAC", language := "eng" }] 0 ++
       subLoop false "eng" "eng"
         [{ id := 1, type := "audio", codecID := "AAC", language := "eng" }] 0) ++
      epilogueArgs "out.mkv" :=
  (cmd_fixed_structure "in.mkv" "out.mkv"
    [{ id := 1, type := "audio", codecID := "AAC", language := "eng" }]
    false "eng" "eng").1

/-- C7: both phase outputs equal their spec-side forms: the emitting tracks
are enumerated with contiguous output-slot numbers starting at 0 (skipped
tracks consume no slot); each mapping argument is "-map" followed by
"0:<source id>" verbatim, and codec/bitrate/title/disposition arguments are
indexed by the output slot, never by the source identifier. -/
theorem slot_counter_invariants (tracks : List trackInfo) (p : Bool) (l g : String) :
    audioLoop tracks p l g tracks 0 = audioPhaseSpec tracks p l g ∧
    subLoop p l g tracks 0 = subPhaseSpec tracks p l g :=
  ⟨audioLoop_eq_phaseSpec tracks p l g, subLoop_eq_phaseSpec tracks p l g⟩

/-- Witness for C7 on a concrete input. -/
theorem slot_counter_invariants_witness :
    audioLoop [{ id := 2, type := "audio", codecID := "E-AC-3", language := "spa" }]
        false "eng" "eng"
        [{ id := 2, type := "audio", codecID := "E-AC-3", language := "spa" }] 0 =
      audioPhaseSpec [{ id := 2, type := "audio", codecID := "E-AC-3", language := "spa" }]
        false "eng" "eng" :=
  (slot_counter_invariants
    [{ id := 2, type := "audio", codecID := "E-AC-3", language := "spa" }]
    false "eng" "eng").1

/-- C9 (amended): the output of build is determined by its five parameters
together with the process-global default language read by
langAndDisposition: for a single copy-audio track the emitted disposition is
computed from the global (glang), while the optlang parameter has no effect
when pruning is off. -/
theorem disposition_from_global (i o : String) (t : trackInfo) (optlang glang : String)
    (htype : t.type = mkvAudioType) (hcodec : t.codecID ≠ eac3Codec) :
    transcoderCmd i o [t] false optlang glang =
      preambleArgs i ++
      ["-c:a:" ++ toString (0 : Nat), "copy",
       "-map", "0:" ++ toString t.id,
       "-disposition:a:" ++ toString (0 : Nat),
       if resolveLang t.language = glang then "default" else "-default"] ++
      epilogueArgs o := by
  have hsub : t.type ≠ mkvSubType := by rw [htype]; decide
  rw [transcoderCmd]
  rw [subLoop, if_pos hsub, subLoop]
  rw [audioLoop]
  rw [if_neg (by simp [htype]), if_neg (by simp), if_neg hcodec]
  rw [audioLoop]
  rw [langAndDisposition_snd]
  simp [preambleArgs, epilogueArgs]

/-- Witness for the amended C9 at a concrete track. -/
theorem disposition_from_global_witness :
    transcoderCmd "in.mkv" "out.mkv"
        [{ id := 1, type := "audio", codecID := "AAC", language := "eng" }]
        false "eng" "spa" =
      preambleArgs "in.mkv" ++
      ["-c:a:" ++ toString (0 : Nat), "copy",
       "-map", "0:" ++ toString (1 : Int),
       "-disposition:a:" ++ toString (0 : Nat),
       if resolveLang "eng" = "spa" then "default" else "-default"] ++
      epilogueArgs "out.mkv" :=
  disposition_from_global "in.mkv" "out.mkv"
    { id := 1, type := "audio", codecID := "AAC", language := "eng" }
    "eng" "spa" rfl (by decide)

/-- C9 counterexample: two invocations of build with identical values of all
five claimed parameters (input path, output path, track list, prune flag,
default language) produce different argument sequences when the global
default-language state read by langAndDisposition differs, so the output is
not a function of the five parameters alone. -/
theorem purity_refuted :
    transcoderCmd "in.mkv" "out.mkv"
        [{ id := 1, type := "audio", codecID := "AAC", language := "eng" }]
        false "eng" "eng" ≠
      transcoderCmd "in.mkv" "out.mkv"
        [{ id := 1, type := "audio", codecID := "AAC", language := "eng" }]
        false "eng" "spa" := by
  decide

/-- C10: a track whose type is none of "video", "audio" or "subtitles"
contributes no argument to the build output: removing it from the track list
leaves the generated command unchanged, for every prune flag and language
configuration. -/
theorem other_types_dropped (i o : String) (l1 l2 : List trackInfo) (doPrune : Bool)
    (optlang glang : String) (t : trackInfo)
    (hv : t.type ≠ "video") (ha : t.type ≠ mkvAudioType) (hs : t.type ≠ mkvSubType) :
    transcoderCmd i o (l1 ++ t :: l2) doPrune optlang glang =
      transcoderCmd i o (l1 ++ l2) doPrune optlang glang := by
  rw [transcoderCmd, transcoderCmd]
  rw [audioPhase_remove_type l1 l2 doPrune optlang glang t ha 0]
  rw [subLoop_remove doPrune optlang glang l1 l2 t 0
    (subEmits_false_of_type doPrune optlang t hs)]

/-- Witness for C10 at a concrete "buttons" track. -/
theorem other_types_dropped_witness :
    transcoderCmd "in.mkv" "out.mkv"
        ([] ++ { id := 4, type := "buttons", codecID := "B_VOBBTN", language := "eng" } :: [])
        false "eng" "eng" =
      transcoderCmd "in.mkv" "out.mkv" ([] ++ []) false "eng" "eng" :=
  other_types_dropped "in.mkv" "out.mkv" [] [] false "eng" "eng"
    { id := 4, type := "buttons", codecID := "B_VOBBTN", language := "eng" }
    (by decide) (by decide) (by decide)

end Videofix
